import Mathlib

/-!
Shallow embedding of the human-in-the-loop draft-review core of the emas
repository: the Draft Generator (`draft_response` in models/draftingagent.py
and Old_agent_code/draftingagent.py), the Review Gate handlers
(`send_message`, `send_email_draft` in
Old_agent_code/human_inbox_human_in_the_loop.py) and the Feedback Recorder
(`save_email` in the same file), together with the key-value store they use.

External runtime pieces (the LangGraph `BaseStore`, the `interrupt`
suspend/resume channel, the `add_messages` reducer, the LLM invocation) are
modelled explicitly: the store as an association list, the LLM as an oracle
function, the verdict as an explicit argument standing for the value the
interrupt channel returns, and side effects (store writes, dispatched
re-drafting runs) as data returned by each function.
-/

namespace Emas

/-- EmailData (models/schemas.py): the inbound email record. -/
structure EmailData where
  id : String
  thread_id : String
  from_email : String
  subject : String
  page_content : String
  send_time : String
  to_email : String
deriving DecidableEq, Repr

/-- Values held by the key-value store: triage examples written by
`save_email` (dicts of the shape `{"input": email, "triage": status}`) and
preference blobs (dicts of the shape `{"data": text}`). -/
inductive StoreVal where
  | triage (input : EmailData) (status : String)
  | data (text : String)
deriving DecidableEq, Repr

/-- One stored entry: namespace tuple, key, value. -/
structure StoreEntry where
  ns : List String
  key : String
  value : StoreVal
deriving DecidableEq, Repr

/-- The LangGraph BaseStore, modelled as a list of entries in write order. -/
abbrev Store := List StoreEntry

/-- `store.aget(namespace, key)`: the value at the first matching entry. -/
def aget (s : Store) (ns : List String) (key : String) : Option StoreVal :=
  (s.find? (fun e => e.ns == ns && e.key == key)).map (fun e => e.value)

/-- `store.aput(namespace, key, value)`: upsert. -/
def aput (s : Store) (ns : List String) (key : String) (v : StoreVal) : Store :=
  if s.any (fun e => e.ns == ns && e.key == key) then
    s.map (fun e => if e.ns == ns && e.key == key then { e with value := v } else e)
  else
    s ++ [⟨ns, key, v⟩]

/-- A value inside a tool-call argument dict (string or boolean). -/
inductive AVal where
  | s (v : String)
  | b (v : Bool)
deriving DecidableEq, Repr

/-- How a dict value renders when interpolated into a Python f-string or
copied into a message content field. -/
def AVal.asText : AVal → String
  | .s v => v
  | .b v => if v then "True" else "False"

/-- A tool-call argument dict, as an association list. -/
abbrev Args := List (String × AVal)

/-- One tool call attached to an assistant message. -/
structure ToolCall where
  id : String
  name : String
  args : Args
deriving DecidableEq, Repr

/-- A conversation message. The Python code builds messages as dicts with
keys role (or type), content, id, name, tool_calls, tool_call_id; absent
keys are modelled by the default values. -/
structure Msg where
  role : String := ""
  content : String := ""
  id : String := ""
  name : String := ""
  tool_calls : List ToolCall := []
  tool_call_id : String := ""
deriving DecidableEq, Repr

/-- ConversationState (State in models/schemas.py restricted to the fields
the review loop reads): the inbound email and the prior messages.
`state.get("messages") or []` collapses an absent message list to `[]`,
so the list is carried directly. -/
structure State where
  email : EmailData
  messages : List Msg
deriving DecidableEq, Repr

/-- Modelled from the spec: the prompt configuration returned by
`get_config` (models.config / eaia.main.config, neither under src/):
the memory flag, the user name and the preference defaults the
Draft Generator and Review Gate read. -/
structure PromptConfig where
  memory : Bool
  name : String
  full_name : String
  background : String
  background_preferences : String
  response_preferences : String
deriving DecidableEq, Repr

/-- The run configuration: the configurable assistant id and the prompt
configuration `get_config` resolves. -/
structure Config where
  assistant_id : Option String
  prompt : PromptConfig
deriving DecidableEq, Repr

/-- Modelled from the spec: `get_config(config)` yields the prompt
configuration (the function itself is not under src/; every use site only
projects fields out of it). -/
def get_config (c : Config) : PromptConfig := c.prompt

/-- `config["configurable"].get("assistant_id", "default")`. -/
def assistantId (c : Config) : String := c.assistant_id.getD "default"

/-- Modelled from the spec: `email_template.format(email_thread, author,
subject, to)` as called by draftingagent.py and
human_inbox_human_in_the_loop.py (the template literal of
Old_agent_code.schemas / eaia.schemas is not under src/; models/schemas.py
holds a variant with different placeholder names). Its exact prose decides
no claim; the render is a function of the four passed fields. -/
def email_template_render (email_thread author subject to_field : String) : String :=
  "From: " ++ author ++ "\nTo: " ++ to_field ++ "\nSubject: " ++ subject ++ "\n\n" ++ email_thread

/-- The `_email_template` string every handler builds from the state. -/
def stateEmailTemplate (st : State) : String :=
  email_template_render st.email.page_content st.email.from_email st.email.subject
    st.email.to_email

/-- `_generate_email_markdown(state)`: the Markdown description shown to the
reviewer (TEMPLATE in human_inbox_human_in_the_loop.py). -/
def email_markdown (st : State) : String :=
  "# " ++ st.email.subject ++ "\n\n" ++
  "[Click here to view the email](https://mail.google.com/mail/u/0/#inbox/" ++ st.email.id ++ ")\n\n" ++
  "**To**: " ++ st.email.to_email ++ "\n" ++
  "**From**: " ++ st.email.from_email ++ "\n\n" ++ st.email.page_content

/-- `save_email(state, config, store, status)`: look the email id up in the
triage_examples namespace; when absent, write `{"input": email, "triage":
status}` under a freshly generated uuid (passed in as `uuid`). Note the
asymmetry of the source: the lookup key is the email id while the write key
is the uuid. -/
def save_email (st : State) (cfg : Config) (store : Store) (uuid : String)
    (status : String) : Store :=
  let ns := [assistantId cfg, "triage_examples"]
  let key := st.email.id
  match aget store ns key with
  | some _ => store
  | none => aput store ns uuid (.triage st.email status)

/-- The LangGraph `add_messages` reducer (external runtime): each new
message replaces the existing message carrying the same id, else appends. -/
def add_messages (existing news : List Msg) : List Msg :=
  news.foldl
    (fun acc m =>
      if acc.any (fun e => e.id == m.id) then
        acc.map (fun e => if e.id == m.id then m else e)
      else acc ++ [m])
    existing

/-- ActionRequest (TypedDict): the pending action shown to the reviewer. -/
structure ActionRequest where
  action : String
  args : Args
deriving DecidableEq, Repr

/-- HumanInterruptConfig (TypedDict): which verdicts the channel offers. -/
structure HumanInterruptConfig where
  allow_ignore : Bool
  allow_respond : Bool
  allow_edit : Bool
  allow_accept : Bool
deriving DecidableEq, Repr

/-- HumanInterrupt (TypedDict): the request handed to `interrupt`. -/
structure HumanInterrupt where
  action_request : ActionRequest
  config : HumanInterruptConfig
  description : Option String
deriving DecidableEq, Repr

/-- The `args` field of a HumanResponse:
`Union[None, str, ActionRequest]`. -/
inductive RArgs where
  | null
  | str (v : String)
  | act (action : String) (args : Args)
deriving DecidableEq, Repr

/-- How a HumanResponse args value renders inside an f-string or when used
directly as message content (a str renders as itself; None and dicts render
through their Python repr, abstracted here). -/
def RArgs.asText : RArgs → String
  | .null => "None"
  | .str v => v
  | .act a _ => "ActionRequest " ++ a

/-- HumanResponse (TypedDict): the verdict the interrupt channel returns.
The type tag is carried as a plain string, as at runtime: the Literal
annotation in the source is not enforced, and the handlers compare the tag
against string literals, raising ValueError on anything unrecognised. -/
structure HumanResponse where
  type : String
  args : RArgs
deriving DecidableEq, Repr

/-- Python exceptions a handler can raise. -/
inductive PyError where
  | valueError (response : HumanResponse)
  | indexError
  | typeError
  | keyError (k : String)
deriving DecidableEq, Repr

/-- One `LGC.runs.create(None, "multi_reflection_graph", input=rewrite_state)`
dispatch: the rewrite_state payload. -/
structure Dispatch where
  messages : List Msg
  feedback : String
  prompt_types : List String
  assistant_key : String
deriving DecidableEq, Repr

/-- What a Review Gate handler returns together with its side effects:
the `{"messages": [msg]}` delta (`none` models `return None`), the store
after any `save_email` write, and the dispatched re-drafting runs. -/
structure GateResult where
  messages : Option (List Msg)
  store : Store
  dispatches : List Dispatch
deriving DecidableEq, Repr

/-- The HumanInterrupt built by `send_message` (Question review): edit and
accept are not offered. -/
def send_message_request (st : State) (tool_call : ToolCall) : HumanInterrupt :=
  { action_request := ⟨tool_call.name, tool_call.args⟩,
    config := ⟨true, true, false, false⟩,
    description := some (email_markdown st) }

/-- The HumanInterrupt built by `send_email_draft` (NewEmailDraft /
ResponseEmailDraft review): all four verdicts are offered. -/
def send_email_draft_request (st : State) (tool_call : ToolCall) : HumanInterrupt :=
  { action_request := ⟨tool_call.name, tool_call.args⟩,
    config := ⟨true, true, true, true⟩,
    description := some (email_markdown st) }

/-- The leading user message of every dispatched rewrite_state:
`{"role": "user", "content": f"Draft a response to this email:\n\n{_email_template}"}`. -/
def draftUserPrompt (st : State) : Msg :=
  { role := "user",
    content := "Draft a response to this email:\n\n" ++ stateEmailTemplate st }

/-- The tool message built by the `response` branch of `send_message`. -/
def questionRespondMsg (tool_call : ToolCall) (content : String) : Msg :=
  { role := "tool", name := tool_call.name, content := content,
    tool_call_id := tool_call.id }

/-- The rewrite_state dispatched by the `response` branch of `send_message`. -/
def questionRespondDispatch (st : State) (cfg : Config) (fb : String) : Dispatch :=
  { messages := [draftUserPrompt st] ++ st.messages,
    feedback := (get_config cfg).name ++ " responded in this way: " ++ fb,
    prompt_types := ["background"],
    assistant_key := assistantId cfg }

/-- The assistant message both handlers build on an `ignore` verdict: it
reuses the id of the last message so the add_messages reducer replaces the
pending draft with an Ignore action. -/
def ignoreMsg (lastMsg : Msg) (tool_call : ToolCall) : Msg :=
  { role := "assistant", content := "", id := lastMsg.id,
    tool_calls := [⟨tool_call.id, "Ignore", [("ignore", .b true)]⟩] }

/-- The feedback f-string of the `response` branch of `send_email_draft`. -/
def interruptedFeedback (cfg : Config) (fb : String) : String :=
  "Error, " ++ (get_config cfg).name ++ " interrupted and gave this feedback: " ++ fb

/-- The tool message built by the `response` branch of `send_email_draft`. -/
def respondDraftMsg (cfg : Config) (tool_call : ToolCall) (fb : String) : Msg :=
  { role := "tool", name := tool_call.name, content := interruptedFeedback cfg fb,
    tool_call_id := tool_call.id }

/-- The rewrite_state dispatched by the `response` branch of
`send_email_draft`. -/
def respondDraftDispatch (st : State) (cfg : Config) (fb : String) : Dispatch :=
  { messages := [draftUserPrompt st] ++ st.messages,
    feedback := interruptedFeedback cfg fb,
    prompt_types := ["tone", "email", "background"],
    assistant_key := assistantId cfg }

/-- The assistant message built by the `edit` branch of `send_email_draft`:
it reuses the id of the last message (so the corrected action replaces the
pending one) and swaps the human-supplied args into the tool call. -/
def editResultMsg (lastMsg : Msg) (tool_call : ToolCall) (aargs : Args) : Msg :=
  { role := "assistant", content := lastMsg.content, id := lastMsg.id,
    tool_calls := [⟨tool_call.id, tool_call.name, aargs⟩] }

/-- The rewrite_state dispatched by the `edit` branch of `send_email_draft`:
the original draft content appears as context, the feedback carries the
corrected content. -/
def editDispatch (st : State) (cfg : Config) (orig corrected : AVal) : Dispatch :=
  { messages := [draftUserPrompt st, { role := "assistant", content := orig.asText }],
    feedback := "A better response would have been: " ++ corrected.asText,
    prompt_types := ["tone", "email", "background"],
    assistant_key := assistantId cfg }

/-- The branch body of `send_message` once the pending tool call has been
read off the last message and the interrupt has resolved. -/
def sendMessageBody (st : State) (cfg : Config) (store : Store) (uuid : String)
    (response : HumanResponse) (lastMsg : Msg) (tool_call : ToolCall) :
    Except PyError GateResult :=
  let memory := (get_config cfg).memory
  if response.type = "response" then
    let msg := questionRespondMsg tool_call response.args.asText
    if memory then
      .ok ⟨some [msg], save_email st cfg store uuid "email",
           [questionRespondDispatch st cfg response.args.asText]⟩
    else .ok ⟨some [msg], store, []⟩
  else if response.type = "ignore" then
    let msg := ignoreMsg lastMsg tool_call
    if memory then .ok ⟨some [msg], save_email st cfg store uuid "no", []⟩
    else .ok ⟨some [msg], store, []⟩
  else .error (.valueError response)

/-- `send_message(state, config, store)`: the Question review handler.
The verdict `response` stands for the value returned by
`interrupt([request])[0]`; `uuid` is the fresh key `save_email` would
generate. Reading `state["messages"][-1].tool_calls[0]` raises IndexError
when absent. -/
def send_message (st : State) (cfg : Config) (store : Store) (uuid : String)
    (response : HumanResponse) : Except PyError GateResult :=
  match st.messages.getLast? with
  | none => .error .indexError
  | some lastMsg =>
    match lastMsg.tool_calls.head? with
    | none => .error .indexError
    | some tool_call => sendMessageBody st cfg store uuid response lastMsg tool_call

/-- The branch body of `send_email_draft` once the pending tool call has
been read off the last message and the interrupt has resolved. -/
def sendEmailDraftBody (st : State) (cfg : Config) (store : Store) (uuid : String)
    (response : HumanResponse) (lastMsg : Msg) (tool_call : ToolCall) :
    Except PyError GateResult :=
  let memory := (get_config cfg).memory
  if response.type = "response" then
    let msg := respondDraftMsg cfg tool_call response.args.asText
    if memory then
      .ok ⟨some [msg], save_email st cfg store uuid "email",
           [respondDraftDispatch st cfg response.args.asText]⟩
    else .ok ⟨some [msg], store, []⟩
  else if response.type = "ignore" then
    let msg := ignoreMsg lastMsg tool_call
    if memory then .ok ⟨some [msg], save_email st cfg store uuid "no", []⟩
    else .ok ⟨some [msg], store, []⟩
  else if response.type = "edit" then
    match response.args with
    | .act _ aargs =>
      let msg := editResultMsg lastMsg tool_call aargs
      if memory then
        match aargs.lookup "content" with
        | none => .error (.keyError "content")
        | some corrected =>
          match tool_call.args.lookup "content" with
          | none => .error (.keyError "content")
          | some orig =>
            .ok ⟨some [msg], save_email st cfg store uuid "email",
                 [editDispatch st cfg orig corrected]⟩
      else .ok ⟨some [msg], store, []⟩
    | _ => .error .typeError
  else if response.type = "accept" then
    if memory then .ok ⟨none, save_email st cfg store uuid "email", []⟩
    else .ok ⟨none, store, []⟩
  else .error (.valueError response)

/-- `send_email_draft(state, config, store)`: the NewEmailDraft /
ResponseEmailDraft review handler, with the same conventions as
`send_message`. Accepting returns None (no message delta); editing reads
the corrected args out of the verdict payload (a non-dict payload raises
TypeError, a missing content key raises KeyError on the memory path). -/
def send_email_draft (st : State) (cfg : Config) (store : Store) (uuid : String)
    (response : HumanResponse) : Except PyError GateResult :=
  match st.messages.getLast? with
  | none => .error .indexError
  | some lastMsg =>
    match lastMsg.tool_calls.head? with
    | none => .error .indexError
    | some tool_call => sendEmailDraftBody st cfg store uuid response lastMsg tool_call

/-- The tools bound in `draft_response`: NewEmailDraft, ResponseEmailDraft,
Question, and Ignore only when at least one prior message exists. -/
inductive ToolName where
  | NewEmailDraft
  | ResponseEmailDraft
  | Question
  | Ignore
deriving DecidableEq, Repr

/-- The tool list built by `draft_response`:
`tools = [NewEmailDraft, ResponseEmailDraft, Question]`, then
`if len(messages) > 0: tools.append(Ignore)`. -/
def draftTools (messages : List Msg) : List ToolName :=
  let tools := [ToolName.NewEmailDraft, ToolName.ResponseEmailDraft, ToolName.Question]
  if messages.length > 0 then tools ++ [ToolName.Ignore] else tools

/-- The preference read in `draft_response`: use the stored `data` field
when present, else write the default back and use the default. A stored
value without a `data` field also falls to the default branch
(`if result and "data" in result.value`). -/
def getOrSeed (store : Store) (ns : List String) (key : String) (dflt : String) :
    String × Store :=
  match aget store ns key with
  | some (.data t) => (t, store)
  | some (.triage _ _) => (dflt, aput store ns key (.data dflt))
  | none => (dflt, aput store ns key (.data dflt))

/-- The corrective message appended after an invalid model response:
`{"role": "user", "content": "Please call a valid tool call."}`. -/
def correctiveMsg : Msg :=
  { role := "user", content := "Please call a valid tool call." }

/-- The retry loop of `draft_response`: invoke the model; return its
response as soon as it carries exactly one tool call; otherwise append the
corrective message and retry while attempts remain, returning the last
(still invalid) response once the budget is spent. `remaining` counts the
retries still allowed (the source runs `i = 0; while i < 5`, so the first
attempt starts with 4 retries in hand). -/
def draftLoop (invoke : List ToolName → List Msg → Msg) (tools : List ToolName) :
    List Msg → Nat → Msg
  | messages, remaining =>
    let response := invoke tools messages
    if response.tool_calls.length = 1 then response
    else
      match remaining with
      | 0 => response
      | n + 1 => draftLoop invoke tools (messages ++ [correctiveMsg]) n

/-- The DACAPO instruction prompt (EMAIL_WRITING_INSTRUCTIONS filled in).
The prose literal is abbreviated to its interpolation structure: no claim
depends on its text, only on which configuration fields it consumes. -/
def emailWritingInstructions (pc : PromptConfig) (random_prefs resp_prefs : String) :
    String :=
  "You are " ++ pc.full_name ++ " executive assistant.\n" ++ pc.background ++ "\n"
    ++ pc.name ++ "\n" ++ resp_prefs ++ "\n" ++ random_prefs

/-- The full input message of `draft_response` (draft_prompt filled in). -/
def draftInputMessage (st : State) (cfg : Config) (random_prefs resp_prefs : String) :
    String :=
  emailWritingInstructions (get_config cfg) random_prefs resp_prefs
    ++ "\n\nRemember to call a tool correctly!\n\n" ++ stateEmailTemplate st

/-- The initial message list handed to the model by `draft_response`:
`[{"role": "user", "content": input_message}] + messages`, after the two
preference reads resolved against the store. -/
def draftInitialMessages (st : State) (cfg : Config) (store : Store) : List Msg :=
  let ns := [assistantId cfg]
  let (random_prefs, store1) :=
    getOrSeed store ns "random_preferences" (get_config cfg).background_preferences
  let (resp_prefs, _store2) :=
    getOrSeed store1 ns "response_preferences" (get_config cfg).response_preferences
  [{ role := "user", content := draftInputMessage st cfg random_prefs resp_prefs }]
    ++ st.messages

/-- The store after the two lazy preference seeds of `draft_response`. -/
def draftStoreAfter (_st : State) (cfg : Config) (store : Store) : Store :=
  let ns := [assistantId cfg]
  let (_, store1) :=
    getOrSeed store ns "random_preferences" (get_config cfg).background_preferences
  let (_, store2) :=
    getOrSeed store1 ns "response_preferences" (get_config cfg).response_preferences
  store2

/-- What `draft_response` returns: `{"draft": response, "messages":
[response]}`, plus the store after the preference seeds. -/
structure DraftResult where
  draft : Msg
  messages : List Msg
  store : Store
deriving DecidableEq, Repr

/-- `draft_response(state, config, store)` (models/draftingagent.py and
Old_agent_code/draftingagent.py; the two copies share this control flow).
`invoke` is the bound LLM (`llm.bind_tools(tools)` followed by
`model.ainvoke(messages)`), modelled as an oracle over the bound tools and
the current message list. -/
def draft_response (invoke : List ToolName → List Msg → Msg) (st : State)
    (cfg : Config) (store : Store) : DraftResult :=
  let tools := draftTools st.messages
  let messages := draftInitialMessages st cfg store
  let response := draftLoop invoke tools messages 4
  ⟨response, [response], draftStoreAfter st cfg store⟩

/-- The number of pending actions a conversation carries: the tool calls of
its last message (the handlers read `state["messages"][-1].tool_calls`). -/
def pendingActions (messages : List Msg) : Nat :=
  ((messages.getLast?).map (fun m => m.tool_calls.length)).getD 0

/-- A Review Gate result either resolves the pending tool call (a tool
message answering its id), replaces the pending draft (a message reusing
the id of the last message, which the add_messages reducer substitutes), or
appends nothing at all (Accept). -/
def resolvesOrReplaces (lastMsg : Msg) (tool_call : ToolCall) (res : GateResult) :
    Prop :=
  match res.messages with
  | none => True
  | some ms => ∃ m, ms = [m] ∧ (m.tool_call_id = tool_call.id ∨ m.id = lastMsg.id)

/-- Concrete inbound email used by the closed witnesses and
counterexamples. -/
def sampleEmail : EmailData :=
  ⟨"e1", "t1", "x@y.com", "Cancel", "Please cancel order 123", "2024-01-01",
   "sales@dacapo.com"⟩

/-- Concrete pending tool call (a ResponseEmailDraft). -/
def sampleToolCall : ToolCall :=
  ⟨"tc1", "ResponseEmailDraft", [("content", .s "Original draft body")]⟩

/-- Concrete pending draft message carrying `sampleToolCall`. -/
def sampleDraftMsg : Msg :=
  { role := "assistant", content := "draft text", id := "m1",
    tool_calls := [sampleToolCall] }

/-- Concrete conversation state: the sample email with one pending draft. -/
def sampleState : State := ⟨sampleEmail, [sampleDraftMsg]⟩

/-- Concrete prompt configuration with the memory flag enabled. -/
def promptOn : PromptConfig :=
  ⟨true, "Andreas", "Andreas Wittus", "background text", "bg prefs", "resp prefs"⟩

/-- Concrete run configuration, memory enabled. -/
def cfgOn : Config := ⟨none, promptOn⟩

/-- Concrete run configuration, memory disabled. -/
def cfgOff : Config := ⟨none, { promptOn with memory := false }⟩

/-- A model response carrying two tool calls: what the LLM may return when
it disobeys the single-tool instruction. -/
def twoCallMsg : Msg :=
  { role := "assistant", content := "",
    tool_calls := [⟨"a", "Question", [("content", .s "q1")]⟩,
                   ⟨"b", "Question", [("content", .s "q2")]⟩] }

/-! ## Theorems -/

lemma draftLoop_spec (invoke : List ToolName → List Msg → Msg)
    (tools : List ToolName) :
    ∀ (n : Nat) (messages : List Msg),
      (draftLoop invoke tools messages n).tool_calls.length = 1
      ∨ ((∀ k ≤ n,
            (invoke tools (messages ++ List.replicate k correctiveMsg)).tool_calls.length ≠ 1)
         ∧ draftLoop invoke tools messages n
            = invoke tools (messages ++ List.replicate n correctiveMsg)) := by
  intro n
  induction n with
  | zero =>
    intro messages
    by_cases h : (invoke tools messages).tool_calls.length = 1
    · left
      simpa [draftLoop] using h
    · right
      refine ⟨?_, ?_⟩
      · intro k hk
        interval_cases k
        simpa using h
      · simp [draftLoop, h]
  | succ n ih =>
    intro messages
    by_cases h : (invoke tools messages).tool_calls.length = 1
    · left
      simp [draftLoop, h]
    · have hstep : draftLoop invoke tools messages (n + 1)
          = draftLoop invoke tools (messages ++ [correctiveMsg]) n := by
        simp [draftLoop, h]
      rcases ih (messages ++ [correctiveMsg]) with h1 | ⟨hall, heq⟩
      · left
        rw [hstep]
        exact h1
      · right
        refine ⟨?_, ?_⟩
        · intro k hk
          cases k with
          | zero => simpa using h
          | succ j =>
            have hj := hall j (by omega)
            simpa [List.replicate_succ] using hj
        · rw [hstep, heq]
          simp [List.replicate_succ]

/-- C1 counterexample: for a model that returns two tool calls on every
attempt, `draft_response` exhausts its five attempts and returns the final
two-tool-call response as its draft. No exception is raised anywhere in the
source loop (there is no GenerationFailure in the code), so the claim that
it never returns a multi-action result after the retry budget is exhausted
is false. -/
theorem c1_counterexample :
    (draft_response (fun _ _ => twoCallMsg) sampleState cfgOn []).draft.tool_calls.length
      = 2 := by
  rfl

/-- C1 amended: `draft_response` makes at most five model invocations and
returns a response with exactly one tool call as soon as an invocation
produces one; if all five invocations produce a non-single tool-call count,
it returns the fifth response unchanged (possibly with zero or multiple
tool calls) instead of raising any failure. -/
theorem c1_amended (invoke : List ToolName → List Msg → Msg) (st : State)
    (cfg : Config) (store : Store) :
    (draft_response invoke st cfg store).draft.tool_calls.length = 1
    ∨ ((∀ k ≤ 4,
          (invoke (draftTools st.messages)
            (draftInitialMessages st cfg store
              ++ List.replicate k correctiveMsg)).tool_calls.length ≠ 1)
       ∧ (draft_response invoke st cfg store).draft
          = invoke (draftTools st.messages)
              (draftInitialMessages st cfg store ++ List.replicate 4 correctiveMsg)) := by
  have h := draftLoop_spec invoke (draftTools st.messages) 4
    (draftInitialMessages st cfg store)
  simpa [draft_response] using h

/-- C5: the Draft Generator offers the Ignore tool exactly when the prior
message sequence is non-empty (`if len(messages) > 0: tools.append(Ignore)`
in both copies of draft_response). -/
theorem c5_ignore_gating (st : State) :
    ToolName.Ignore ∈ draftTools st.messages ↔ st.messages ≠ [] := by
  unfold draftTools
  rcases st.messages with _ | ⟨m, ms⟩
  · simp
  · simp

/-- C2: calling `save_email` twice with the same email id and the same
status, starting from an empty store, leaves exactly one stored training
example measured by content: the duplicate-detection lookup uses the email
id while writes happen under fresh uuids, so a second physical entry can
appear, but its content is identical, and deduplicating the stored values
by content yields exactly the single example. -/
theorem c2_idempotent_by_content (st : State) (cfg : Config)
    (status u1 u2 : String) :
    ((save_email st cfg (save_email st cfg [] u1 status) u2 status).map
        (fun e => e.value)).dedup
      = [StoreVal.triage st.email status] := by
  have h1 : save_email st cfg [] u1 status
      = [⟨[assistantId cfg, "triage_examples"], u1, StoreVal.triage st.email status⟩] := by
    simp [save_email, aget, aput]
  rw [h1]
  by_cases hk : u1 = st.email.id
  · have h2 : save_email st cfg
        [⟨[assistantId cfg, "triage_examples"], u1, StoreVal.triage st.email status⟩]
        u2 status
        = [⟨[assistantId cfg, "triage_examples"], u1, StoreVal.triage st.email status⟩] := by
      simp [save_email, aget, hk]
    rw [h2]
    simp
  · by_cases hu : u2 = u1
    · have h2 : save_email st cfg
          [⟨[assistantId cfg, "triage_examples"], u1, StoreVal.triage st.email status⟩]
          u2 status
          = [⟨[assistantId cfg, "triage_examples"], u1, StoreVal.triage st.email status⟩] := by
        simp [save_email, aget, aput, hk, hu]
      rw [h2]
      simp
    · have h2 : save_email st cfg
          [⟨[assistantId cfg, "triage_examples"], u1, StoreVal.triage st.email status⟩]
          u2 status
          = [⟨[assistantId cfg, "triage_examples"], u1, StoreVal.triage st.email status⟩,
             ⟨[assistantId cfg, "triage_examples"], u2, StoreVal.triage st.email status⟩] := by
        simp [save_email, aget, aput, hk, hu, Ne.symm hu]
      rw [h2]
      simp [List.dedup_cons_of_mem]

lemma send_message_eq_body (st : State) (cfg : Config) (store : Store) (uuid : String)
    (resp : HumanResponse) (lastMsg : Msg) (tool_call : ToolCall)
    (h1 : st.messages.getLast? = some lastMsg)
    (h2 : lastMsg.tool_calls.head? = some tool_call) :
    send_message st cfg store uuid resp
      = sendMessageBody st cfg store uuid resp lastMsg tool_call := by
  simp [send_message, h1, h2]

lemma send_email_draft_eq_body (st : State) (cfg : Config) (store : Store)
    (uuid : String) (resp : HumanResponse) (lastMsg : Msg) (tool_call : ToolCall)
    (h1 : st.messages.getLast? = some lastMsg)
    (h2 : lastMsg.tool_calls.head? = some tool_call) :
    send_email_draft st cfg store uuid resp
      = sendEmailDraftBody st cfg store uuid resp lastMsg tool_call := by
  simp [send_email_draft, h1, h2]

/-- C3: the offered and enforced verdict sets are action-dependent. For a
Question review (`send_message`) the interrupt request offers only ignore
and respond, and an accept or edit verdict is rejected with the ValueError
of the catch-all branch (the InvalidVerdict of the spec); for a
NewEmailDraft/ResponseEmailDraft review (`send_email_draft`) the request
offers all four verdicts and all four are handled without error (the edit
verdict assuming a well-formed ActionRequest payload with a content
field). -/
theorem c3_verdict_sets (st : State) (cfg : Config) (store : Store)
    (uuid fb act : String) (aargs : Args) (corr orig : AVal)
    (lastMsg : Msg) (tool_call : ToolCall)
    (h1 : st.messages.getLast? = some lastMsg)
    (h2 : lastMsg.tool_calls.head? = some tool_call)
    (ha : aargs.lookup "content" = some corr)
    (ht : tool_call.args.lookup "content" = some orig) :
    (send_message_request st tool_call).config = ⟨true, true, false, false⟩
    ∧ (send_email_draft_request st tool_call).config = ⟨true, true, true, true⟩
    ∧ send_message st cfg store uuid ⟨"accept", .null⟩
        = .error (.valueError ⟨"accept", .null⟩)
    ∧ send_message st cfg store uuid ⟨"edit", .act act aargs⟩
        = .error (.valueError ⟨"edit", .act act aargs⟩)
    ∧ (∃ r, send_message st cfg store uuid ⟨"response", .str fb⟩ = .ok r)
    ∧ (∃ r, send_message st cfg store uuid ⟨"ignore", .null⟩ = .ok r)
    ∧ (∃ r, send_email_draft st cfg store uuid ⟨"response", .str fb⟩ = .ok r)
    ∧ (∃ r, send_email_draft st cfg store uuid ⟨"ignore", .null⟩ = .ok r)
    ∧ (∃ r, send_email_draft st cfg store uuid ⟨"edit", .act act aargs⟩ = .ok r)
    ∧ (∃ r, send_email_draft st cfg store uuid ⟨"accept", .null⟩ = .ok r) := by
  refine ⟨rfl, rfl, ?_, ?_, ?_, ?_, ?_, ?_, ?_, ?_⟩
  · rw [send_message_eq_body st cfg store uuid _ lastMsg tool_call h1 h2]
    simp [sendMessageBody]
  · rw [send_message_eq_body st cfg store uuid _ lastMsg tool_call h1 h2]
    simp [sendMessageBody]
  · rw [send_message_eq_body st cfg store uuid _ lastMsg tool_call h1 h2]
    simp only [sendMessageBody]
    by_cases hm : (get_config cfg).memory = true <;> simp [hm]
  · rw [send_message_eq_body st cfg store uuid _ lastMsg tool_call h1 h2]
    simp only [sendMessageBody]
    by_cases hm : (get_config cfg).memory = true <;> simp [hm]
  · rw [send_email_draft_eq_body st cfg store uuid _ lastMsg tool_call h1 h2]
    simp only [sendEmailDraftBody]
    by_cases hm : (get_config cfg).memory = true <;> simp [hm]
  · rw [send_email_draft_eq_body st cfg store uuid _ lastMsg tool_call h1 h2]
    simp only [sendEmailDraftBody]
    by_cases hm : (get_config cfg).memory = true <;> simp [hm]
  · rw [send_email_draft_eq_body st cfg store uuid _ lastMsg tool_call h1 h2]
    simp only [sendEmailDraftBody]
    simp only [ha, ht]
    by_cases hm : (get_config cfg).memory = true <;> simp [hm]
  · rw [send_email_draft_eq_body st cfg store uuid _ lastMsg tool_call h1 h2]
    simp only [sendEmailDraftBody]
    by_cases hm : (get_config cfg).memory = true <;> simp [hm]

/-- C3 witness: the verdict-set theorem applied at a concrete review state
(one pending ResponseEmailDraft, memory enabled). -/
theorem c3_verdict_sets_witness :
    (send_message_request sampleState sampleToolCall).config
      = ⟨true, true, false, false⟩
    ∧ (send_email_draft_request sampleState sampleToolCall).config
      = ⟨true, true, true, true⟩
    ∧ send_message sampleState cfgOn [] "u1" ⟨"accept", .null⟩
        = .error (.valueError ⟨"accept", .null⟩)
    ∧ send_message sampleState cfgOn [] "u1"
        ⟨"edit", .act "ResponseEmailDraft" [("content", .s "fix")]⟩
        = .error (.valueError ⟨"edit", .act "ResponseEmailDraft" [("content", .s "fix")]⟩)
    ∧ (∃ r, send_message sampleState cfgOn [] "u1" ⟨"response", .str "ok"⟩ = .ok r)
    ∧ (∃ r, send_message sampleState cfgOn [] "u1" ⟨"ignore", .null⟩ = .ok r)
    ∧ (∃ r, send_email_draft sampleState cfgOn [] "u1" ⟨"response", .str "ok"⟩ = .ok r)
    ∧ (∃ r, send_email_draft sampleState cfgOn [] "u1" ⟨"ignore", .null⟩ = .ok r)
    ∧ (∃ r, send_email_draft sampleState cfgOn [] "u1"
        ⟨"edit", .act "ResponseEmailDraft" [("content", .s "fix")]⟩ = .ok r)
    ∧ (∃ r, send_email_draft sampleState cfgOn [] "u1" ⟨"accept", .null⟩ = .ok r) :=
  c3_verdict_sets sampleState cfgOn [] "u1" "ok" "ResponseEmailDraft"
    [("content", .s "fix")] (.s "fix") (.s "Original draft body")
    sampleDraftMsg sampleToolCall (by decide) (by decide) (by decide) (by decide)

/-- C4 counterexample: an accept verdict on a Question review is outside
the permitted set, and the handler raises ValueError, which propagates and
ends the run; the embedding returns the raised error, and nothing in the
source re-enters the interrupt to wait for a new verdict, so the claim that
the suspension re-waits rather than the run crashing is false. -/
theorem c4_counterexample :
    send_message sampleState cfgOn [] "u1" ⟨"accept", .null⟩
      = .error (.valueError ⟨"accept", .null⟩) := by
  rfl

/-- C4 amended: a verdict whose type tag is outside the permitted set of
the pending action is rejected, but by raising ValueError out of the
handler (ending the run) rather than by re-waiting on the suspension. -/
theorem c4_amended (st : State) (cfg : Config) (store : Store) (uuid : String)
    (resp : HumanResponse) (lastMsg : Msg) (tool_call : ToolCall)
    (h1 : st.messages.getLast? = some lastMsg)
    (h2 : lastMsg.tool_calls.head? = some tool_call) :
    (resp.type ∉ ["response", "ignore"] →
      send_message st cfg store uuid resp = .error (.valueError resp))
    ∧ (resp.type ∉ ["response", "ignore", "edit", "accept"] →
      send_email_draft st cfg store uuid resp = .error (.valueError resp)) := by
  constructor
  · intro hn
    simp only [List.mem_cons, List.mem_singleton, not_or] at hn
    rw [send_message_eq_body st cfg store uuid _ lastMsg tool_call h1 h2]
    simp [sendMessageBody, hn.1, hn.2.1]
  · intro hn
    simp only [List.mem_cons, List.mem_singleton, not_or] at hn
    rw [send_email_draft_eq_body st cfg store uuid _ lastMsg tool_call h1 h2]
    simp [sendEmailDraftBody, hn.1, hn.2.1, hn.2.2.1, hn.2.2.2.1]

/-- C4 amended witness: an unrecognised verdict tag raises ValueError in
both handlers at the concrete review state. -/
theorem c4_amended_witness :
    send_message sampleState cfgOn [] "u1" ⟨"bogus", .null⟩
      = .error (.valueError ⟨"bogus", .null⟩)
    ∧ send_email_draft sampleState cfgOn [] "u1" ⟨"bogus", .null⟩
      = .error (.valueError ⟨"bogus", .null⟩) :=
  ⟨(c4_amended sampleState cfgOn [] "u1" ⟨"bogus", .null⟩ sampleDraftMsg sampleToolCall
      (by decide) (by decide)).1 (by decide),
   (c4_amended sampleState cfgOn [] "u1" ⟨"bogus", .null⟩ sampleDraftMsg sampleToolCall
      (by decide) (by decide)).2 (by decide)⟩

/-- C6 counterexample: with the memory flag enabled, resolving a draft
review with Accept writes a triage record into the store through
`save_email` — a Feedback Recorder store write — so the claim that nothing
is recorded beyond accept-logging (no store write) is false. No message is
appended and nothing is dispatched, but the store changes from empty to one
entry. -/
theorem c6_counterexample :
    send_email_draft sampleState cfgOn [] "u1" ⟨"accept", .null⟩
      = .ok ⟨none,
          [⟨["default", "triage_examples"], "u1", .triage sampleEmail "email"⟩], []⟩
    ∧ ([⟨["default", "triage_examples"], "u1", StoreVal.triage sampleEmail "email"⟩]
        : Store) ≠ [] :=
  ⟨rfl, by decide⟩

/-- C6 amended: an Accept verdict on a draft review appends no message and
dispatches no re-drafting task, but when the memory flag is enabled it does
write one triage record (status "email") to the store via `save_email`;
with memory disabled the store is untouched. -/
theorem c6_amended (st : State) (cfg : Config) (store : Store) (uuid : String)
    (args : RArgs) (lastMsg : Msg) (tool_call : ToolCall)
    (h1 : st.messages.getLast? = some lastMsg)
    (h2 : lastMsg.tool_calls.head? = some tool_call) :
    send_email_draft st cfg store uuid ⟨"accept", args⟩
      = .ok ⟨none,
          (if (get_config cfg).memory then save_email st cfg store uuid "email"
           else store),
          []⟩ := by
  rw [send_email_draft_eq_body st cfg store uuid _ lastMsg tool_call h1 h2]
  simp only [sendEmailDraftBody]
  by_cases hm : (get_config cfg).memory = true <;> simp [hm]

/-- C6 amended witness: the Accept result at a concrete review state with
memory disabled. -/
theorem c6_amended_witness :
    send_email_draft sampleState cfgOff [] "u2" ⟨"accept", .null⟩
      = .ok ⟨none,
          (if (get_config cfgOff).memory then save_email sampleState cfgOff [] "u2" "email"
           else []),
          []⟩ :=
  c6_amended sampleState cfgOff [] "u2" .null sampleDraftMsg sampleToolCall
    (by decide) (by decide)

/-- C7: resolving a draft review with Edit returns one assistant message
that reuses the id of the pending draft message and carries the
human-corrected args in place of the original tool-call args, so the
add_messages reducer substitutes it for the original action; with memory
enabled, the dispatched feedback string is built from the corrected content
(the stored triage record depends only on the email, not on the superseded
action), and with memory disabled nothing is stored or dispatched. -/
theorem c7_edit_substitution (st : State) (cfg : Config) (store : Store)
    (uuid act : String) (aargs : Args) (corr orig : AVal)
    (pre : List Msg) (lastMsg : Msg) (tool_call : ToolCall)
    (h0 : st.messages = pre ++ [lastMsg])
    (h2 : lastMsg.tool_calls.head? = some tool_call)
    (ha : aargs.lookup "content" = some corr)
    (ht : tool_call.args.lookup "content" = some orig)
    (hid : ∀ m ∈ pre, m.id ≠ lastMsg.id) :
    send_email_draft st cfg store uuid ⟨"edit", .act act aargs⟩
      = .ok ⟨some [editResultMsg lastMsg tool_call aargs],
          (if (get_config cfg).memory then save_email st cfg store uuid "email"
           else store),
          (if (get_config cfg).memory then [editDispatch st cfg orig corr] else [])⟩
    ∧ add_messages st.messages [editResultMsg lastMsg tool_call aargs]
        = pre ++ [editResultMsg lastMsg tool_call aargs] := by
  have h1 : st.messages.getLast? = some lastMsg := by
    rw [h0, List.getLast?_append_cons]
    rfl
  constructor
  · rw [send_email_draft_eq_body st cfg store uuid _ lastMsg tool_call h1 h2]
    simp only [sendEmailDraftBody]
    by_cases hm : (get_config cfg).memory = true <;> simp [hm, ha, ht]
  · rw [h0]
    unfold add_messages
    simp only [List.foldl_cons, List.foldl_nil]
    have hany : ((pre ++ [lastMsg]).any
        fun e => e.id == (editResultMsg lastMsg tool_call aargs).id) = true := by
      simp [editResultMsg]
    simp only [hany, if_true]
    rw [List.map_append]
    have hpre : pre.map
        (fun e => if e.id == (editResultMsg lastMsg tool_call aargs).id
          then editResultMsg lastMsg tool_call aargs else e) = pre := by
      conv_rhs => rw [← List.map_id pre]
      apply List.map_congr_left
      intro a hAa
      simp [editResultMsg, hid a hAa]
    rw [hpre]
    simp [editResultMsg]

/-- C7 witness: the Edit substitution at a concrete review state. -/
theorem c7_edit_substitution_witness :
    send_email_draft sampleState cfgOn [] "u3"
        ⟨"edit", .act "ResponseEmailDraft" [("content", .s "Corrected body")]⟩
      = .ok ⟨some [editResultMsg sampleDraftMsg sampleToolCall
            [("content", .s "Corrected body")]],
          (if (get_config cfgOn).memory then save_email sampleState cfgOn [] "u3" "email"
           else []),
          (if (get_config cfgOn).memory
           then [editDispatch sampleState cfgOn (.s "Original draft body")
                  (.s "Corrected body")]
           else [])⟩
    ∧ add_messages sampleState.messages
        [editResultMsg sampleDraftMsg sampleToolCall [("content", .s "Corrected body")]]
        = [] ++ [editResultMsg sampleDraftMsg sampleToolCall
            [("content", .s "Corrected body")]] :=
  c7_edit_substitution sampleState cfgOn [] "u3" "ResponseEmailDraft"
    [("content", .s "Corrected body")] (.s "Corrected body") (.s "Original draft body")
    [] sampleDraftMsg sampleToolCall rfl (by decide) (by decide) (by decide) (by simp)

/-- C8 counterexample: resolving a draft review with a Respond verdict
carrying feedback text, with memory enabled, stores a triage record whose
label is the string "email" — exactly the same stored record the Accept
verdict produces — and not a distinct rejected-with-feedback label, so the
claim that the stored TrainingExample is labeled rejected-with-feedback is
false. -/
theorem c8_counterexample :
    (send_email_draft sampleState cfgOn [] "u1"
        ⟨"response", .str "ask for the item number first"⟩).map (fun r => r.store)
      = .ok [⟨["default", "triage_examples"], "u1", .triage sampleEmail "email"⟩]
    ∧ (send_email_draft sampleState cfgOn [] "u1"
        ⟨"response", .str "ask for the item number first"⟩).map (fun r => r.store)
      = (send_email_draft sampleState cfgOn [] "u1" ⟨"accept", .null⟩).map
          (fun r => r.store)
    ∧ StoreVal.triage sampleEmail "email"
        ≠ StoreVal.triage sampleEmail "rejected-with-feedback" :=
  ⟨rfl, rfl, by decide⟩

/-- C8 amended: a Respond verdict with feedback text, memory enabled,
appends exactly one tool message carrying the feedback, performs exactly
the `save_email` store write (one triage record labeled "email" — the same
label Accept produces, with no stored correction text), and dispatches
exactly one re-drafting task whose feedback field carries the feedback
text and whose message list opens with the draft prompt. -/
theorem c8_amended (st : State) (cfg : Config) (store : Store) (uuid fb : String)
    (lastMsg : Msg) (tool_call : ToolCall)
    (h1 : st.messages.getLast? = some lastMsg)
    (h2 : lastMsg.tool_calls.head? = some tool_call)
    (hm : (get_config cfg).memory = true) :
    send_email_draft st cfg store uuid ⟨"response", .str fb⟩
      = .ok ⟨some [respondDraftMsg cfg tool_call fb],
          save_email st cfg store uuid "email",
          [respondDraftDispatch st cfg fb]⟩ := by
  rw [send_email_draft_eq_body st cfg store uuid _ lastMsg tool_call h1 h2]
  simp [sendEmailDraftBody, hm, RArgs.asText]

/-- C8 amended witness: the Respond-with-feedback result at a concrete
review state with memory enabled. -/
theorem c8_amended_witness :
    send_email_draft sampleState cfgOn [] "u6"
        ⟨"response", .str "please ask for the order number"⟩
      = .ok ⟨some [respondDraftMsg cfgOn sampleToolCall "please ask for the order number"],
          save_email sampleState cfgOn [] "u6" "email",
          [respondDraftDispatch sampleState cfgOn "please ask for the order number"]⟩ :=
  c8_amended sampleState cfgOn [] "u6" "please ask for the order number"
    sampleDraftMsg sampleToolCall (by decide) (by decide) rfl

lemma sendMessageBody_resolves (st : State) (cfg : Config) (store : Store)
    (uuid : String) (resp : HumanResponse) (lastMsg : Msg) (tool_call : ToolCall)
    (res : GateResult)
    (h : sendMessageBody st cfg store uuid resp lastMsg tool_call = .ok res) :
    resolvesOrReplaces lastMsg tool_call res := by
  simp only [sendMessageBody] at h
  repeat' split at h
  all_goals first
    | exact Except.noConfusion h
    | (injection h with h; subst h;
       first
        | exact trivial
        | exact ⟨_, rfl, Or.inl rfl⟩
        | exact ⟨_, rfl, Or.inr rfl⟩)

lemma sendEmailDraftBody_resolves (st : State) (cfg : Config) (store : Store)
    (uuid : String) (resp : HumanResponse) (lastMsg : Msg) (tool_call : ToolCall)
    (res : GateResult)
    (h : sendEmailDraftBody st cfg store uuid resp lastMsg tool_call = .ok res) :
    resolvesOrReplaces lastMsg tool_call res := by
  simp only [sendEmailDraftBody] at h
  repeat' split at h
  all_goals first
    | exact Except.noConfusion h
    | (injection h with h; subst h;
       first
        | exact trivial
        | exact ⟨_, rfl, Or.inl rfl⟩
        | exact ⟨_, rfl, Or.inr rfl⟩)

/-- C9 counterexample: the Draft Generator can contribute more than one
pending action per invocation: when every model attempt returns two tool
calls, the message `draft_response` appends to the conversation carries two
pending tool calls, contradicting the claim that the Draft Generator
contributes at most one new pending Action per invocation. -/
theorem c9_counterexample :
    pendingActions (add_messages sampleState.messages
        (draft_response (fun _ _ => twoCallMsg) sampleState cfgOn []).messages) = 2 := by
  rfl

/-- C9 amended: the Review Gate part of the claim holds — every
successfully resolved review either appends no message (Accept) or appends
exactly one message that resolves the pending tool call (a tool reply to
its id) or replaces the pending draft (reuses the last message id) — and
the Draft Generator contributes exactly one pending Action whenever one of
its five attempts yields a single tool call, but when all five attempts
yield a non-single count the appended message may carry zero or several
pending actions. -/
theorem c9_amended (invoke : List ToolName → List Msg → Msg) (st : State)
    (cfg : Config) (store : Store) (uuid : String) (resp : HumanResponse)
    (res : GateResult) (lastMsg : Msg) (tool_call : ToolCall)
    (h1 : st.messages.getLast? = some lastMsg)
    (h2 : lastMsg.tool_calls.head? = some tool_call) :
    ((draft_response invoke st cfg store).draft.tool_calls.length = 1
      ∨ ∀ k ≤ 4,
          (invoke (draftTools st.messages)
            (draftInitialMessages st cfg store
              ++ List.replicate k correctiveMsg)).tool_calls.length ≠ 1)
    ∧ (send_message st cfg store uuid resp = .ok res →
        resolvesOrReplaces lastMsg tool_call res)
    ∧ (send_email_draft st cfg store uuid resp = .ok res →
        resolvesOrReplaces lastMsg tool_call res) := by
  refine ⟨?_, ?_, ?_⟩
  · rcases draftLoop_spec invoke (draftTools st.messages) 4
      (draftInitialMessages st cfg store) with h | ⟨hall, _⟩
    · exact Or.inl h
    · exact Or.inr hall
  · intro hok
    rw [send_message_eq_body st cfg store uuid _ lastMsg tool_call h1 h2] at hok
    exact sendMessageBody_resolves st cfg store uuid resp lastMsg tool_call res hok
  · intro hok
    rw [send_email_draft_eq_body st cfg store uuid _ lastMsg tool_call h1 h2] at hok
    exact sendEmailDraftBody_resolves st cfg store uuid resp lastMsg tool_call res hok

/-- C9 amended witness: the single-pending-action properties at a concrete
review state, with the ignore verdict and its actual handler result. -/
theorem c9_amended_witness :
    ((draft_response (fun _ _ => twoCallMsg) sampleState cfgOn []).draft.tool_calls.length = 1
      ∨ ∀ k ≤ 4,
          ((fun (_ : List ToolName) (_ : List Msg) => twoCallMsg)
            (draftTools sampleState.messages)
            (draftInitialMessages sampleState cfgOn []
              ++ List.replicate k correctiveMsg)).tool_calls.length ≠ 1)
    ∧ (send_message sampleState cfgOn [] "u4" ⟨"ignore", .null⟩
        = .ok ⟨some [ignoreMsg sampleDraftMsg sampleToolCall],
            save_email sampleState cfgOn [] "u4" "no", []⟩ →
        resolvesOrReplaces sampleDraftMsg sampleToolCall
          ⟨some [ignoreMsg sampleDraftMsg sampleToolCall],
           save_email sampleState cfgOn [] "u4" "no", []⟩)
    ∧ (send_email_draft sampleState cfgOn [] "u4" ⟨"ignore", .null⟩
        = .ok ⟨some [ignoreMsg sampleDraftMsg sampleToolCall],
            save_email sampleState cfgOn [] "u4" "no", []⟩ →
        resolvesOrReplaces sampleDraftMsg sampleToolCall
          ⟨some [ignoreMsg sampleDraftMsg sampleToolCall],
           save_email sampleState cfgOn [] "u4" "no", []⟩) :=
  c9_amended (fun _ _ => twoCallMsg) sampleState cfgOn [] "u4" ⟨"ignore", .null⟩
    ⟨some [ignoreMsg sampleDraftMsg sampleToolCall],
     save_email sampleState cfgOn [] "u4" "no", []⟩
    sampleDraftMsg sampleToolCall (by decide) (by decide)

lemma sendMessageBody_frame (st : State) (cfg : Config) (store : Store)
    (uuid : String) (resp : HumanResponse) (lastMsg : Msg) (tool_call : ToolCall)
    (res : GateResult) (hm : (get_config cfg).memory = false)
    (h : sendMessageBody st cfg store uuid resp lastMsg tool_call = .ok res) :
    res.store = store ∧ res.dispatches = [] := by
  simp only [sendMessageBody, hm, Bool.false_eq_true, if_false] at h
  repeat' split at h
  all_goals first
    | exact Except.noConfusion h
    | (injection h with h; subst h; exact ⟨rfl, rfl⟩)

lemma sendEmailDraftBody_frame (st : State) (cfg : Config) (store : Store)
    (uuid : String) (resp : HumanResponse) (lastMsg : Msg) (tool_call : ToolCall)
    (res : GateResult) (hm : (get_config cfg).memory = false)
    (h : sendEmailDraftBody st cfg store uuid resp lastMsg tool_call = .ok res) :
    res.store = store ∧ res.dispatches = [] := by
  simp only [sendEmailDraftBody, hm, Bool.false_eq_true, if_false] at h
  repeat' split at h
  all_goals first
    | exact Except.noConfusion h
    | (injection h with h; subst h; exact ⟨rfl, rfl⟩)

/-- C10: with the memory flag disabled, every successfully handled verdict
in both Review Gate handlers leaves the store untouched and dispatches no
re-drafting task; the only effect is the returned message delta (or none
for Accept). -/
theorem c10_memory_off_frame (st : State) (cfg : Config) (store : Store)
    (uuid : String) (resp : HumanResponse) (res : GateResult)
    (hm : (get_config cfg).memory = false) :
    (send_message st cfg store uuid resp = .ok res →
      res.store = store ∧ res.dispatches = [])
    ∧ (send_email_draft st cfg store uuid resp = .ok res →
      res.store = store ∧ res.dispatches = []) := by
  constructor
  · intro h
    unfold send_message at h
    repeat' split at h
    all_goals first
      | exact Except.noConfusion h
      | exact sendMessageBody_frame _ _ _ _ _ _ _ _ hm h
  · intro h
    unfold send_email_draft at h
    repeat' split at h
    all_goals first
      | exact Except.noConfusion h
      | exact sendEmailDraftBody_frame _ _ _ _ _ _ _ _ hm h

/-- C10 witness: the frame property at a concrete review state with memory
disabled and an ignore verdict. -/
theorem c10_memory_off_frame_witness :
    (send_message sampleState cfgOff [] "u5" ⟨"ignore", .null⟩
        = .ok ⟨some [ignoreMsg sampleDraftMsg sampleToolCall], [], []⟩ →
      (GateResult.mk (some [ignoreMsg sampleDraftMsg sampleToolCall]) [] []).store
          = ([] : Store)
      ∧ (GateResult.mk (some [ignoreMsg sampleDraftMsg sampleToolCall]) [] []).dispatches
          = [])
    ∧ (send_email_draft sampleState cfgOff [] "u5" ⟨"ignore", .null⟩
        = .ok ⟨some [ignoreMsg sampleDraftMsg sampleToolCall], [], []⟩ →
      (GateResult.mk (some [ignoreMsg sampleDraftMsg sampleToolCall]) [] []).store
          = ([] : Store)
      ∧ (GateResult.mk (some [ignoreMsg sampleDraftMsg sampleToolCall]) [] []).dispatches
          = []) :=
  c10_memory_off_frame sampleState cfgOff [] "u5" ⟨"ignore", .null⟩
    ⟨some [ignoreMsg sampleDraftMsg sampleToolCall], [], []⟩ rfl

end Emas
